import Mathlib

/-!
Verification of the metric/rank/filter/paginate pipeline of
`src/components/ReelsRankingDashboard.jsx` (Instagram Reels Ranking Dashboard).

Modelling conventions:
* JS numbers are modelled exactly: raw counts as `ℕ`, derived metrics as `ℚ`.
  `Math.log10` is an external real-valued library function whose numeric values
  no verified property depends on; it is passed around as a parameter
  `lg : ℕ → ℚ`.
* `Array.prototype.sort` is stable (ES2019); it is modelled by `List.mergeSort`
  with the boolean comparator derived from the JS comparator
  `(a, b) => b[metric] - a[metric]` (resp. `a[metric] - b[metric]`).
* JS `undefined` results (e.g. `[0]` on an empty array) are modelled by
  `Option`; lodash `_.meanBy` of an empty list yields `NaN` in JS, modelled
  as `Option.none`.
-/

namespace ReelsDashboard

/-- A raw CSV row as produced by `Papa.parse` with `header: true` and
`dynamicTyping: true`: columns `Reel,Views,Likes,Comments`. -/
structure RawRow where
  Reel : String
  Views : ℕ
  Likes : ℕ
  Comments : ℕ
deriving DecidableEq

/-- A processed record as built in `fetchData`'s `complete` callback:
the raw fields plus the derived fields.  `DisplayUrl` is only populated for
the top-10 chart data (empty otherwise, modelling the absent JS field). -/
structure Record where
  Reel : String
  Views : ℕ
  Likes : ℕ
  Comments : ℕ
  id : ℕ
  EngagementRate : ℚ
  EngagementScore : ℚ
  ViralCoefficient : ℚ
  ShortUrl : String
  DisplayUrl : String := ""
deriving DecidableEq

/-- JS `Array.prototype.slice(start, end)` for already-clamped nonnegative
indices (`ℕ` subtraction performs the clamping at 0). -/
def jsSlice (l : List α) (s e : ℕ) : List α := (l.drop s).take (e - s)

/-- JS `hay.includes(needle)`: `needle` occurs contiguously in `hay`. -/
def jsIncludes (hay needle : String) : Bool :=
  (List.range (hay.toList.length + 1)).any
    (fun i => needle.toList.isPrefixOf (hay.toList.drop i))

/-- JS `String.prototype.toLowerCase` (character-wise case mapping). -/
def jsToLower (s : String) : String := String.mk (s.toList.map Char.toLower)

/-- The spec's notion: `needle` is a case-insensitive substring of `hay`. -/
def ciSubstring (needle hay : String) : Prop :=
  (jsToLower needle).toList <:+: (jsToLower hay).toList

instance (needle hay : String) : Decidable (ciSubstring needle hay) := by
  unfold ciSubstring
  exact List.decidableInfix _ _

/-- Helper for `jsSplit`: split a character list at every occurrence of
`sep`, keeping empty pieces (JS `String.prototype.split` semantics). -/
def splitOnChar (sep : Char) : List Char → List (List Char)
  | [] => [[]]
  | c :: rest =>
    if c = sep then [] :: splitOnChar sep rest
    else
      match splitOnChar sep rest with
      | [] => [[c]]
      | piece :: pieces => (c :: piece) :: pieces

/-- JS `s.split(sep)` for a single-character separator. -/
def jsSplit (s : String) (sep : Char) : List String :=
  (splitOnChar sep s.toList).map String.mk

/-- `row.Reel.split('/')` (line 54). -/
def urlSegments (url : String) : List String := jsSplit url '/'

/-- `row.Reel.split('/').slice(-2, -1)[0]` (line 54).  `slice(-2, -1)` is
`slice(max(len-2,0), max(len-1,0))`; `[0]` on an empty array is JS
`undefined`, modelled as `none`. -/
def shortUrl (url : String) : Option String :=
  (jsSlice (urlSegments url) ((urlSegments url).length - 2)
    ((urlSegments url).length - 1)).head?

/-- Modelled from the spec: the claim's reading of the `ShortUrl` extraction,
"splitting the Reel URL on `/` and taking the second-from-last NON-EMPTY
segment".  (The source at line 54 does not skip empty segments; this
definition exists to compare the two.) -/
def secondFromLastNonempty (url : String) : Option String :=
  let segs := (urlSegments url).filter (fun s => !s.isEmpty)
  if 2 ≤ segs.length then segs[segs.length - 2]? else none

/-- One step of `results.data.map((row, index) => ...)` (lines 42-64):
derive `EngagementRate`, `EngagementScore`, `ViralCoefficient`, `ShortUrl`
and the 1-based `id`.  `lg` stands for `Math.log10`. -/
def processRow (lg : ℕ → ℚ) (index : ℕ) (row : RawRow) : Record :=
  let engagementRate : ℚ := ((row.Likes : ℚ) + (row.Comments : ℚ)) / (row.Views : ℚ) * 100
  let engagementScore : ℚ :=
    ((row.Likes : ℚ) * 1 + (row.Comments : ℚ) * 3) / (row.Views : ℚ) * 100
  let viralCoefficient : ℚ := lg row.Views * engagementRate / 100
  { Reel := row.Reel
    Views := row.Views
    Likes := row.Likes
    Comments := row.Comments
    id := index + 1
    EngagementRate := engagementRate
    EngagementScore := engagementScore
    ViralCoefficient := viralCoefficient
    ShortUrl := (shortUrl row.Reel).getD ""
    DisplayUrl := "" }

/-- `results.data.map((row, index) => ...)` over the whole parsed CSV. -/
def processedData (lg : ℕ → ℚ) (rows : List RawRow) : List Record :=
  rows.enum.map (fun p => processRow lg p.1 p.2)

/-- The six selectable ranking metrics (the `rankingMetric` select options). -/
inductive Metric where
  | Views | Likes | Comments | EngagementRate | EngagementScore | ViralCoefficient
deriving DecidableEq

/-- The field lookup `row[rankingMetric]`. -/
def metricValue : Metric → Record → ℚ
  | .Views, r => (r.Views : ℚ)
  | .Likes, r => (r.Likes : ℚ)
  | .Comments, r => (r.Comments : ℚ)
  | .EngagementRate, r => r.EngagementRate
  | .EngagementScore, r => r.EngagementScore
  | .ViralCoefficient, r => r.ViralCoefficient

/-- The `sortOrder` select: `'asc' | 'desc'`. -/
inductive SortOrder where
  | asc | desc
deriving DecidableEq

/-- Boolean comparator corresponding to the JS sort comparators
`a[metric] - b[metric]` (asc, line 118) and `b[metric] - a[metric]`
(desc, lines 83 and 120): `sortLe ord m a b` holds when the stable sort may
keep `a` before `b`. -/
def sortLe (ord : SortOrder) (m : Metric) (a b : Record) : Bool :=
  match ord with
  | .asc => decide (metricValue m a ≤ metricValue m b)
  | .desc => decide (metricValue m b ≤ metricValue m a)

/-- JS `reel.ShortUrl.slice(-5)` (line 88): the last (at most) 5 characters. -/
def lastFive (s : String) : String :=
  String.mk (s.toList.drop (s.toList.length - 5))

/-- `newTop10` (lines 80-93): guarded by `data.length > 0`, sort a copy of the
data descending by the ranking metric, take the first 10, annotate each with
`DisplayUrl`. -/
def newTop10 (m : Metric) (data : List Record) : List Record :=
  if 0 < data.length then
    ((data.mergeSort (sortLe .desc m)).take 10).map
      (fun reel => { reel with DisplayUrl := lastFive reel.ShortUrl })
  else []

/-- The filter predicate of `filteredData` (lines 111-115). -/
def recordMatches (filterValue : String) (item : Record) : Bool :=
  (filterValue == "") ||
  jsIncludes (jsToLower item.Reel) (jsToLower filterValue) ||
  jsIncludes (jsToLower item.ShortUrl) (jsToLower filterValue)

/-- `filteredData` (lines 110-122): filter then stable-sort by the selected
metric in the selected order. -/
def filteredData (filterValue : String) (m : Metric) (ord : SortOrder)
    (data : List Record) : List Record :=
  (data.filter (recordMatches filterValue)).mergeSort (sortLe ord m)

/-- `rowsPerPage = 10` (line 28). -/
def rowsPerPage : ℕ := 10

/-- `paginatedData` (line 125): `filteredData.slice((page-1)*10, page*10)`. -/
def paginatedData (filterValue : String) (m : Metric) (ord : SortOrder)
    (data : List Record) (page : ℕ) : List Record :=
  jsSlice (filteredData filterValue m ord data)
    ((page - 1) * rowsPerPage) (page * rowsPerPage)

/-- lodash `_.sumBy`. -/
def sumBy (f : Record → ℚ) (l : List Record) : ℚ := (l.map f).sum

/-- lodash `_.meanBy`; on an empty list JS divides 0 by 0 producing `NaN`,
modelled as `none`. -/
def meanBy (f : Record → ℚ) (l : List Record) : Option ℚ :=
  if l.length = 0 then none else some (sumBy f l / (l.length : ℚ))

/-- The `stats` object (lines 239-245). -/
structure Stats where
  totalViews : ℚ
  totalLikes : ℚ
  totalComments : ℚ
  avgEngagementRate : Option ℚ
  avgEngagementScore : Option ℚ
deriving DecidableEq

/-- `stats` computed over the current data (lines 239-245). -/
def stats (data : List Record) : Stats :=
  { totalViews := sumBy (fun r => (r.Views : ℚ)) data
    totalLikes := sumBy (fun r => (r.Likes : ℚ)) data
    totalComments := sumBy (fun r => (r.Comments : ℚ)) data
    avgEngagementRate := meanBy (fun r => r.EngagementRate) data
    avgEngagementScore := meanBy (fun r => r.EngagementScore) data }

/-- Component state relevant to loading: `data` and `loading` (lines 18-19). -/
structure DashState where
  data : List Record
  loading : Bool
deriving DecidableEq

/-- `useState([])` and `useState(true)` (lines 18-19). -/
def initState : DashState := { data := [], loading := true }

/-- The outcome of `fetchData` (lines 31-74): on success (`some rows`) the
`complete` callback sets `data` and clears `loading`; on a fetch/parse failure
(`none`) the `catch` block logs and clears `loading`, leaving `data` as is. -/
def applyFetchResult (lg : ℕ → ℚ) (st : DashState) : Option (List RawRow) → DashState
  | some rows => { st with data := processedData lg rows, loading := false }
  | none => { st with loading := false }

/-! ### Helper lemmas -/

theorem jsIncludes_iff (hay needle : String) :
    jsIncludes hay needle = true ↔ needle.toList <:+: hay.toList := by
  unfold jsIncludes
  rw [List.any_eq_true]
  constructor
  · rintro ⟨i, -, hpre⟩
    rw [ List.isPrefixOf_iff_prefix] at hpre
    obtain ⟨t, ht⟩ := hpre
    exact ⟨hay.toList.take i, t, by rw [List.append_assoc, ht, List.take_append_drop]⟩
  · rintro ⟨s, t, h⟩
    refine ⟨s.length, List.mem_range.mpr ?_, ?_⟩
    · have hlen := congrArg List.length h
      simp only [List.length_append] at hlen
      omega
    · rw [ List.isPrefixOf_iff_prefix]
      exact ⟨t, by rw [← h, List.append_assoc, List.drop_left]⟩

/-- The filter predicate holds exactly when the filter text is a
case-insensitive substring of the record's `Reel` URL or of its `ShortUrl`
(the `filterValue === ''` disjunct is subsumed: the empty string is a
substring of everything). -/
theorem recordMatches_iff (f : String) (r : Record) :
    recordMatches f r = true ↔ ciSubstring f r.Reel ∨ ciSubstring f r.ShortUrl := by
  unfold recordMatches ciSubstring
  rw [Bool.or_eq_true, Bool.or_eq_true, jsIncludes_iff, jsIncludes_iff]
  constructor
  · rintro ((hf | h) | h)
    · have hf2 : f = "" := by simpa using hf
      subst hf2
      exact Or.inl ⟨[], (jsToLower r.Reel).toList, rfl⟩
    · exact Or.inl h
    · exact Or.inr h
  · rintro (h | h)
    · exact Or.inl (Or.inr h)
    · exact Or.inr h

theorem sortLe_trans (ord : SortOrder) (m : Metric) :
    ∀ a b c : Record, sortLe ord m a b → sortLe ord m b c → sortLe ord m a c := by
  intro a b c hab hbc
  cases ord
  · simp only [sortLe, decide_eq_true_eq] at hab hbc ⊢
    exact le_trans hab hbc
  · simp only [sortLe, decide_eq_true_eq] at hab hbc ⊢
    exact le_trans hbc hab

theorem sortLe_total (ord : SortOrder) (m : Metric) :
    ∀ a b : Record, sortLe ord m a b || sortLe ord m b a := by
  intro a b
  cases ord <;> simp only [sortLe, Bool.or_eq_true, decide_eq_true_eq] <;>
    exact le_total _ _

theorem sortLe_tie (ord : SortOrder) (m : Metric) (a b : Record)
    (h : metricValue m a = metricValue m b) : sortLe ord m a b = true := by
  cases ord <;> simp [sortLe, h]

theorem metricValue_displayUpdate (m : Metric) (r : Record) (u : String) :
    metricValue m { r with DisplayUrl := u } = metricValue m r := by
  cases m <;> rfl

theorem pairwise_mem_rel {α : Type} {R : α → α → Prop} :
    ∀ {l : List α}, l.Pairwise R → ∀ {a b}, a ∈ l → b ∈ l → a = b ∨ R a b ∨ R b a := by
  intro l h
  induction h with
  | nil =>
    intro a b ha _
    exact absurd ha (List.not_mem_nil a)
  | cons hx _ ih =>
    intro a b ha hb
    rcases List.mem_cons.mp ha with rfl | ha2
    · rcases List.mem_cons.mp hb with rfl | hb2
      · exact Or.inl rfl
      · exact Or.inr (Or.inl (hx b hb2))
    · rcases List.mem_cons.mp hb with rfl | hb2
      · exact Or.inr (Or.inr (hx a ha2))
      · exact ih ha2 hb2

theorem sublist_pair_of_pairwise {α : Type} {R : α → α → Prop}
    (asymm : ∀ x y, R x y → ¬ R y x) :
    ∀ {l : List α}, l.Pairwise R → ∀ {a b}, a ∈ l → b ∈ l → R a b → [a, b].Sublist l := by
  intro l h
  induction h with
  | nil =>
    intro a b ha _ _
    exact absurd ha (List.not_mem_nil a)
  | cons hx _ ih =>
    intro a b ha hb hr
    rcases List.mem_cons.mp ha with rfl | ha2
    · rcases List.mem_cons.mp hb with rfl | hb2
      · exact absurd hr (asymm _ _ hr)
      · exact List.Sublist.cons₂ a (List.singleton_sublist.mpr hb2)
    · rcases List.mem_cons.mp hb with rfl | hb2
      · exact absurd (hx a ha2) (asymm _ _ hr)
      · exact List.Sublist.cons _ (ih ha2 hb2 hr)

theorem eq_of_sublist_pair_both {α : Type} :
    ∀ {l : List α}, l.Nodup → ∀ {a b : α}, [a, b].Sublist l → [b, a].Sublist l → a = b := by
  intro l
  induction l with
  | nil =>
    intro _ a b hab _
    exact absurd (hab.subset (by simp)) (List.not_mem_nil a)
  | cons x t ih =>
    intro hnd a b hab hba
    rw [List.nodup_cons] at hnd
    cases hab with
    | cons _ hab2 =>
      cases hba with
      | cons _ hba2 => exact ih hnd.2 hab2 hba2
      | cons₂ _ hba2 => exact absurd (hab2.subset (by simp)) hnd.1
    | cons₂ _ hab2 =>
      cases hba with
      | cons _ hba2 => exact absurd (hba2.subset (by simp)) hnd.1
      | cons₂ _ hba2 => rfl

/-- Stability of the modelled `Array.prototype.sort`: when the input list is
strictly increasing on `ident` and the comparator breaks ties as `true`,
elements with equal sort keys stay in `ident` order in the output. -/
theorem mergeSort_stable_by {α : Type} {k : α → ℚ} {ident : α → ℕ}
    {le : α → α → Bool}
    (trans : ∀ a b c, le a b → le b c → le a c)
    (total : ∀ a b, le a b || le b a)
    (tie : ∀ a b, k a = k b → le a b = true)
    {l : List α} (h : l.Pairwise (fun a b => ident a < ident b)) :
    (l.mergeSort le).Pairwise (fun a b => k a = k b → ident a < ident b) := by
  have hnodupl : l.Nodup := by
    refine h.imp ?_
    intro a b hlt he
    rw [he] at hlt
    exact lt_irrefl _ hlt
  have hnd : (l.mergeSort le).Nodup :=
    (List.Perm.nodup_iff (List.mergeSort_perm l le)).mpr hnodupl
  rw [List.pairwise_iff_forall_sublist]
  intro a b hab hk
  by_contra hcon
  have ha : a ∈ l := List.mem_mergeSort.mp (hab.subset (by simp))
  have hb : b ∈ l := List.mem_mergeSort.mp (hab.subset (by simp))
  rcases pairwise_mem_rel h ha hb with heq | hlt | hgt
  · subst heq
    exact List.nodup_iff_sublist.mp hnd a hab
  · exact hcon hlt
  · have hba_l : [b, a].Sublist l :=
      sublist_pair_of_pairwise (fun x y hxy => lt_asymm hxy) h hb ha hgt
    have hba : [b, a].Sublist (l.mergeSort le) :=
      List.pair_sublist_mergeSort trans total (tie b a hk.symm) hba_l
    have heq : a = b := eq_of_sublist_pair_both hnd hab hba
    rw [heq] at hgt
    exact lt_irrefl _ hgt

theorem paginatedData_length (f : String) (m : Metric) (ord : SortOrder)
    (data : List Record) (p : ℕ) (hp : 1 ≤ p) :
    (paginatedData f m ord data p).length =
      min 10 ((filteredData f m ord data).length - (p - 1) * 10) := by
  unfold paginatedData jsSlice rowsPerPage
  rw [List.length_take, List.length_drop]
  omega

theorem paginatedData_succ (f : String) (m : Metric) (ord : SortOrder)
    (data : List Record) (i : ℕ) :
    paginatedData f m ord data (i + 1) =
      ((filteredData f m ord data).drop (i * 10)).take 10 := by
  unfold paginatedData jsSlice rowsPerPage
  have h2 : (i + 1) * 10 - (i + 1 - 1) * 10 = 10 := by omega
  have h1 : (i + 1 - 1) * 10 = i * 10 := by omega
  rw [h2, h1]

theorem flatMap_chunks {α : Type} :
    ∀ (n : ℕ) (l : List α), l.length ≤ n * 10 →
      (List.range n).flatMap (fun i => (l.drop (i * 10)).take 10) = l := by
  intro n
  induction n with
  | zero =>
    intro l hl
    have h0 : l = [] := List.length_eq_zero.mp (Nat.le_zero.mp hl)
    subst h0
    rfl
  | succ n ih =>
    intro l hl
    have hstep : ∀ i : ℕ,
        (l.drop (Nat.succ i * 10)).take 10 = ((l.drop 10).drop (i * 10)).take 10 := by
      intro i
      rw [List.drop_drop]
      have h10 : 10 + i * 10 = Nat.succ i * 10 := by omega
      rw [h10]
    rw [List.range_succ_eq_map, List.flatMap_cons, List.flatMap_map]
    simp only [hstep]
    rw [ih (l.drop 10) (by rw [List.length_drop]; omega)]
    simp only [Nat.zero_mul, List.drop_zero]
    exact List.take_append_drop 10 l

/-! ### Concrete data used to instantiate witnesses -/

/-- The spec's example input row. -/
def specExampleRow : RawRow :=
  { Reel := "https://x/y/aaa111", Views := 1000, Likes := 100, Comments := 10 }

/-- A concrete processed record (ingestion order 1). -/
def sampleA : Record :=
  { Reel := "https://host/a/1", Views := 5, Likes := 1, Comments := 0, id := 1,
    EngagementRate := 20, EngagementScore := 20, ViralCoefficient := 0,
    ShortUrl := "a" }

/-- A concrete processed record (ingestion order 2) with the same metric
values as `sampleA`. -/
def sampleB : Record :=
  { Reel := "https://host/b/2", Views := 5, Likes := 1, Comments := 0, id := 2,
    EngagementRate := 20, EngagementScore := 20, ViralCoefficient := 0,
    ShortUrl := "b" }

/-- A record whose `ShortUrl` is "abc". -/
def sampleAbc : Record :=
  { Reel := "https://insta/abc/1", Views := 1, Likes := 1, Comments := 1, id := 1,
    EngagementRate := 200, EngagementScore := 400, ViralCoefficient := 0,
    ShortUrl := "abc" }

/-- A record matching neither "abc" in `Reel` nor in `ShortUrl`. -/
def sampleOther : Record :=
  { Reel := "https://z/y/2", Views := 1, Likes := 1, Comments := 1, id := 2,
    EngagementRate := 200, EngagementScore := 400, ViralCoefficient := 0,
    ShortUrl := "y" }

/-! ### Claim theorems -/

/-- C1: For every ingested record with Views > 0, the Metric Deriver produces
`EngagementRate = (Likes+Comments)/Views*100`,
`EngagementScore = (Likes*1 + Comments*3)/Views*100`, and
`ViralCoefficient = log10(Views)*EngagementRate/100`. -/
theorem metric_deriver_formulas (lg : ℕ → ℚ) (index : ℕ) (row : RawRow)
    (h : 0 < row.Views) :
    (processRow lg index row).EngagementRate =
      ((row.Likes : ℚ) + (row.Comments : ℚ)) / (row.Views : ℚ) * 100 ∧
    (processRow lg index row).EngagementScore =
      ((row.Likes : ℚ) * 1 + (row.Comments : ℚ) * 3) / (row.Views : ℚ) * 100 ∧
    (processRow lg index row).ViralCoefficient =
      lg row.Views * (processRow lg index row).EngagementRate / 100 :=
  ⟨rfl, rfl, rfl⟩

/-- Witness for C1 at the spec's example row (`Math.log10` instantiated with
the constant 3, the true value of `log10 1000`): the derived metrics are
`EngagementRate = 11`, `EngagementScore = 13`,
`ViralCoefficient = 3 * 11 / 100`. -/
theorem metric_deriver_formulas_witness :
    0 < specExampleRow.Views ∧
    (processRow (fun _ => 3) 0 specExampleRow).EngagementRate = 11 ∧
    (processRow (fun _ => 3) 0 specExampleRow).EngagementScore = 13 ∧
    (processRow (fun _ => 3) 0 specExampleRow).ViralCoefficient = 3 * 11 / 100 := by
  have h := metric_deriver_formulas (fun _ => 3) 0 specExampleRow (by decide)
  refine ⟨by decide, ?_, ?_, ?_⟩
  · rw [h.1]; norm_num [specExampleRow]
  · rw [h.2.1]; norm_num [specExampleRow]
  · rw [h.2.2, h.1]; norm_num [specExampleRow]

/-- C2: For every record list and every selected metric, the top-10 list is
sorted descending by that metric (pairwise, each later element's metric value
is at most the earlier one's) and has length `min(10, total records)`. -/
theorem top10_sorted_and_length (m : Metric) (data : List Record) :
    (newTop10 m data).Pairwise (fun a b => metricValue m b ≤ metricValue m a) ∧
    (newTop10 m data).length = min 10 data.length := by
  unfold newTop10
  by_cases hd : 0 < data.length
  · rw [if_pos hd]
    constructor
    · have hs := List.sorted_mergeSort
        (sortLe_trans .desc m) (sortLe_total .desc m) data
      have ht := List.Pairwise.sublist (List.take_sublist 10 _) hs
      rw [List.pairwise_map]
      refine ht.imp ?_
      intro a b hab
      simp only [metricValue_displayUpdate]
      simpa [sortLe] using hab
    · rw [List.length_map, List.length_take, List.length_mergeSort]
  · rw [if_neg hd]
    have h0 : data.length = 0 := by omega
    simp [h0]

/-- C3: Both the Ranker's descending sort and the table's
ascending/descending sort are stable: when the input records are in
ingestion order (strictly increasing ids), any two output records with equal
selected-metric values appear in increasing id order. -/
theorem sorts_stable_by_ingestion_order (f : String) (m : Metric)
    (ord : SortOrder) (data : List Record)
    (h : data.Pairwise (fun a b => a.id < b.id)) :
    (newTop10 m data).Pairwise
      (fun a b => metricValue m a = metricValue m b → a.id < b.id) ∧
    (filteredData f m ord data).Pairwise
      (fun a b => metricValue m a = metricValue m b → a.id < b.id) := by
  constructor
  · unfold newTop10
    by_cases hd : 0 < data.length
    · rw [if_pos hd]
      have hs := mergeSort_stable_by
        (sortLe_trans .desc m) (sortLe_total .desc m)
        (fun a b hk => sortLe_tie .desc m a b hk) h
      have ht := List.Pairwise.sublist (List.take_sublist 10 _) hs
      rw [List.pairwise_map]
      refine ht.imp ?_
      intro a b hab hk
      simp only [metricValue_displayUpdate] at hk
      exact hab hk
    · rw [if_neg hd]
      exact List.Pairwise.nil
  · unfold filteredData
    have hfil : (data.filter (recordMatches f)).Pairwise (fun a b => a.id < b.id) :=
      List.Pairwise.sublist (List.filter_sublist data) h
    exact mergeSort_stable_by (sortLe_trans ord m) (sortLe_total ord m)
      (fun a b hk => sortLe_tie ord m a b hk) hfil

/-- Witness for C3: two records with equal metric values in ingestion order. -/
theorem sorts_stable_by_ingestion_order_witness :
    ([sampleA, sampleB].Pairwise (fun a b => a.id < b.id)) ∧
    ((newTop10 Metric.EngagementRate [sampleA, sampleB]).Pairwise
      (fun a b =>
        metricValue Metric.EngagementRate a = metricValue Metric.EngagementRate b →
        a.id < b.id) ∧
    (filteredData "" Metric.EngagementRate SortOrder.desc
        [sampleA, sampleB]).Pairwise
      (fun a b =>
        metricValue Metric.EngagementRate a = metricValue Metric.EngagementRate b →
        a.id < b.id)) :=
  ⟨by decide,
   sorts_stable_by_ingestion_order "" Metric.EngagementRate SortOrder.desc
     [sampleA, sampleB] (by decide)⟩

/-- C4: A record passes the filter iff the filter string is a
case-insensitive substring of its `Reel` URL or of its `ShortUrl`; the empty
filter string passes every record. -/
theorem filter_match_iff (f : String) (r : Record) :
    (recordMatches f r = true ↔ ciSubstring f r.Reel ∨ ciSubstring f r.ShortUrl) ∧
    recordMatches "" r = true :=
  ⟨recordMatches_iff f r, by simp [recordMatches]⟩

/-- C5: For every 1-based page number p the paginated page equals the slice
`[(p-1)*10, p*10)` of the filtered sorted list; the non-empty pages are
exactly `1 .. ceil(N/10)` (with `(N+9)/10 = ceil(N/10)`); and for `N > 0`
the last page contains `N mod 10` records, or 10 when `N` is divisible by
10. -/
theorem pagination_slice_pages (f : String) (m : Metric) (ord : SortOrder)
    (data : List Record) (p : ℕ) (hp : 1 ≤ p) :
    paginatedData f m ord data p =
      jsSlice (filteredData f m ord data) ((p - 1) * rowsPerPage) (p * rowsPerPage) ∧
    (paginatedData f m ord data p ≠ [] ↔
      p ≤ ((filteredData f m ord data).length + 9) / 10) ∧
    (0 < (filteredData f m ord data).length →
      (paginatedData f m ord data
          (((filteredData f m ord data).length + 9) / 10)).length =
        if (filteredData f m ord data).length % 10 = 0 then 10
        else (filteredData f m ord data).length % 10) := by
  refine ⟨rfl, ?_, ?_⟩
  · rw [← List.length_pos, paginatedData_length f m ord data p hp]
    omega
  · intro hN
    have hp0 : 1 ≤ ((filteredData f m ord data).length + 9) / 10 := by omega
    rw [paginatedData_length f m ord data _ hp0]
    by_cases h10 : (filteredData f m ord data).length % 10 = 0
    · rw [if_pos h10]
      omega
    · rw [if_neg h10]
      omega

/-- Witness for C5: one record, page 1. -/
theorem pagination_slice_pages_witness :
    1 ≤ 1 ∧
    (paginatedData "" Metric.Views SortOrder.desc [sampleA] 1 =
      jsSlice (filteredData "" Metric.Views SortOrder.desc [sampleA])
        ((1 - 1) * rowsPerPage) (1 * rowsPerPage) ∧
    (paginatedData "" Metric.Views SortOrder.desc [sampleA] 1 ≠ [] ↔
      1 ≤ ((filteredData "" Metric.Views SortOrder.desc [sampleA]).length + 9) / 10) ∧
    (0 < (filteredData "" Metric.Views SortOrder.desc [sampleA]).length →
      (paginatedData "" Metric.Views SortOrder.desc [sampleA]
          (((filteredData "" Metric.Views SortOrder.desc [sampleA]).length + 9) / 10)).length =
        if (filteredData "" Metric.Views SortOrder.desc [sampleA]).length % 10 = 0 then 10
        else (filteredData "" Metric.Views SortOrder.desc [sampleA]).length % 10)) :=
  ⟨by decide, pagination_slice_pages "" Metric.Views SortOrder.desc [sampleA] 1 (by decide)⟩

/-- C6 counterexample: for `Reel = "a//b"` the code's `ShortUrl` is the empty
second-from-last segment, not the second-from-last NON-EMPTY segment "a"
claimed by the spec sentence. -/
theorem shorturl_nonempty_counterexample :
    (processRow (fun _ => 0) 0
      { Reel := "a//b", Views := 1, Likes := 1, Comments := 1 }).ShortUrl = "" ∧
    secondFromLastNonempty "a//b" = some "a" ∧
    (processRow (fun _ => 0) 0
      { Reel := "a//b", Views := 1, Likes := 1, Comments := 1 }).ShortUrl ≠
      (secondFromLastNonempty "a//b").getD "" := by
  refine ⟨by decide, by decide, by decide⟩

/-- C6 amended: `ShortUrl` is the second-from-last segment of the `/`-split
of the Reel URL, counting empty segments (index `len - 2`), whenever the
split has at least two segments. -/
theorem shorturl_second_from_last_segment (lg : ℕ → ℚ) (index : ℕ)
    (row : RawRow) (h : 2 ≤ (urlSegments row.Reel).length) :
    (processRow lg index row).ShortUrl =
      (urlSegments row.Reel).getD ((urlSegments row.Reel).length - 2) "" := by
  show (shortUrl row.Reel).getD "" = _
  unfold shortUrl jsSlice
  have hlt : (urlSegments row.Reel).length - 2 < (urlSegments row.Reel).length := by
    omega
  have h1 : (urlSegments row.Reel).length - 1 - ((urlSegments row.Reel).length - 2) = 1 := by
    omega
  rw [h1, List.drop_eq_getElem_cons hlt, List.getD_eq_getElem?_getD,
    List.getElem?_eq_getElem hlt]
  rfl

/-- Witness for C6 amended at the spec's example URL: the second-from-last
segment of "https://x/y/aaa111" is "y". -/
theorem shorturl_second_from_last_segment_witness :
    2 ≤ (urlSegments specExampleRow.Reel).length ∧
    (processRow (fun _ => 0) 0 specExampleRow).ShortUrl =
      (urlSegments specExampleRow.Reel).getD
        ((urlSegments specExampleRow.Reel).length - 2) "" ∧
    (processRow (fun _ => 0) 0 specExampleRow).ShortUrl = "y" :=
  ⟨by decide,
   shorturl_second_from_last_segment (fun _ => 0) 0 specExampleRow (by decide),
   by decide⟩

/-- C7: Any 1-based page whose start offset is at or beyond the filtered
record count yields the empty list (no error: the paginator is total). -/
theorem out_of_range_page_empty (f : String) (m : Metric) (ord : SortOrder)
    (data : List Record) (p : ℕ) (hp : 1 ≤ p)
    (h : (filteredData f m ord data).length ≤ (p - 1) * rowsPerPage) :
    paginatedData f m ord data p = [] := by
  rw [← List.length_eq_zero, paginatedData_length f m ord data p hp]
  have h10 : rowsPerPage = 10 := rfl
  rw [h10] at h
  omega

/-- Witness for C7: one filtered record, page 2 starts at offset 10 ≥ 1. -/
theorem out_of_range_page_empty_witness :
    1 ≤ 2 ∧
    (filteredData "" Metric.Views SortOrder.desc [sampleA]).length ≤ (2 - 1) * rowsPerPage ∧
    paginatedData "" Metric.Views SortOrder.desc [sampleA] 2 = [] :=
  ⟨by decide,
   by unfold filteredData
      rw [List.length_mergeSort]
      decide,
   out_of_range_page_empty "" Metric.Views SortOrder.desc [sampleA] 2 (by decide)
     (by unfold filteredData
         rw [List.length_mergeSort]
         decide)⟩

/-- C8: When the fetch or parse fails, the component ends in the ready state
(`loading = false`) with an empty record list, and the statistics over that
empty list have zero totals and non-finite (`NaN`, modelled `none`)
averages. -/
theorem load_failure_ready_empty (lg : ℕ → ℚ) :
    (applyFetchResult lg initState none).loading = false ∧
    (applyFetchResult lg initState none).data = [] ∧
    stats (applyFetchResult lg initState none).data =
      { totalViews := 0, totalLikes := 0, totalComments := 0,
        avgEngagementRate := none, avgEngagementScore := none } :=
  ⟨rfl, rfl, rfl⟩

/-- C9 counterexample: "abc" is a case-insensitive substring of exactly one
record's `ShortUrl`, yet the filter also matches the other record through
its `Reel` URL, so the filtered list has length 2, not 1. -/
theorem unique_shorturl_filter_counterexample :
    ((processedData (fun _ => 0)
        [{ Reel := "https://insta/abc/1", Views := 1, Likes := 1, Comments := 1 },
         { Reel := "https://abc/y/2", Views := 1, Likes := 1, Comments := 1 }]).countP
      (fun r => decide (ciSubstring "abc" r.ShortUrl)) = 1) ∧
    (filteredData "abc" Metric.Views SortOrder.desc
        (processedData (fun _ => 0)
          [{ Reel := "https://insta/abc/1", Views := 1, Likes := 1, Comments := 1 },
           { Reel := "https://abc/y/2", Views := 1, Likes := 1, Comments := 1 }])).length = 2 := by
  constructor
  · decide
  · unfold filteredData
    rw [List.length_mergeSort]
    decide

/-- C9 amended: if the filter string is a case-insensitive substring of one
record's `ShortUrl` and of no other record's `Reel` or `ShortUrl`, then
filtering yields exactly that one record. -/
theorem unique_match_filter (f : String) (m : Metric) (ord : SortOrder)
    (l₁ l₂ : List Record) (r : Record)
    (hr : ciSubstring f r.ShortUrl)
    (hothers : ∀ x, x ∈ l₁ ++ l₂ →
      ¬ ciSubstring f x.ShortUrl ∧ ¬ ciSubstring f x.Reel) :
    filteredData f m ord (l₁ ++ r :: l₂) = [r] := by
  have hmatch : ∀ x, x ∈ l₁ ++ l₂ → ¬ recordMatches f x = true := by
    intro x hx hm
    rcases (recordMatches_iff f x).mp hm with hc | hc
    · exact (hothers x hx).2 hc
    · exact (hothers x hx).1 hc
  have hl1 : l₁.filter (recordMatches f) = [] := by
    rw [List.filter_eq_nil_iff]
    intro a ha
    exact hmatch a (List.mem_append_left _ ha)
  have hl2 : l₂.filter (recordMatches f) = [] := by
    rw [List.filter_eq_nil_iff]
    intro a ha
    exact hmatch a (List.mem_append_right _ ha)
  have hrt : recordMatches f r = true := (recordMatches_iff f r).mpr (Or.inr hr)
  have hfil : (l₁ ++ r :: l₂).filter (recordMatches f) = [r] := by
    rw [List.filter_append, List.filter_cons, hl1, hl2]
    simp [hrt]
  unfold filteredData
  rw [hfil, List.mergeSort_singleton]

/-- Witness for C9 amended: "abc" matches only `sampleAbc`. -/
theorem unique_match_filter_witness :
    ciSubstring "abc" sampleAbc.ShortUrl ∧
    (∀ x, x ∈ ([] : List Record) ++ [sampleOther] →
      ¬ ciSubstring "abc" x.ShortUrl ∧ ¬ ciSubstring "abc" x.Reel) ∧
    filteredData "abc" Metric.Views SortOrder.desc
      ([] ++ sampleAbc :: [sampleOther]) = [sampleAbc] :=
  ⟨by decide, by decide,
   unique_match_filter "abc" Metric.Views SortOrder.desc [] [sampleOther]
     sampleAbc (by decide) (by decide)⟩

/-- C10: Concatenating the pages 1 .. ceil(N/10) reproduces the filtered
sorted list exactly: every filtered record appears on exactly one page,
with no duplication and no omission. -/
theorem pages_cover_filtered_exactly (f : String) (m : Metric)
    (ord : SortOrder) (data : List Record) :
    (List.range (((filteredData f m ord data).length + 9) / 10)).flatMap
        (fun i => paginatedData f m ord data (i + 1)) =
      filteredData f m ord data := by
  have hle : (filteredData f m ord data).length ≤
      (((filteredData f m ord data).length + 9) / 10) * 10 := by omega
  simp only [paginatedData_succ]
  exact flatMap_chunks _ _ hle

end ReelsDashboard
